import Mathlib

/-!
Shallow embedding of the core of reindex_concurrently.py (version 1.1.0):
the functions dbquery, process_index and process_table, together with the
global counters they mutate.  Database answers and the wall clock are
modelled as oracles (the Env structure); every statement handed to the
database is recorded in a trace, tagged with whether it was executed or
merely printed (dry-run).  An unguarded first-row access on an empty
result set (Python fetchall()[0]) is modelled as a fatal outcome that
terminates the run.
-/

namespace ReindexConcurrently

/-- The SQL statements the script issues, abstracted from their exact text.
Read-only catalog lookups and the mutating statements are distinguished by
constructor.  createIdxConc carries the derived creation text fetched from
the catalog (the regexp-rewritten definition that creates the replacement
index under the name with the fixed suffix appended). -/
inductive Sql where
  | setTimeout (secs : Int)
  | idxInfo (name : String)
  | idxDef (name : String)
  | dropIdxConcIfExists (name : String)
  | createIdxConc (stmt : String)
  | idxValid (name : String)
  | relSize (name : String)
  | analyse (tbl : String)
  | beginTxn
  | dropConstraint (tbl name : String)
  | renameIdx (oldName newName : String)
  | addPkUsingIndex (tbl name : String)
  | commitTxn
  | dropIdxConc (name : String)
  | idxNames (tbl : String)
deriving DecidableEq

/-- The read-only SELECT lookups (resolution, definition fetch, validity
check, size lookup, table index listing); everything else mutates the
database session or catalog. -/
def Sql.isReadOnly : Sql → Bool
  | .idxInfo _ => true
  | .idxDef _ => true
  | .idxValid _ => true
  | .relSize _ => true
  | .idxNames _ => true
  | _ => false

/-- A statement handed to dbquery: either sent to the database or, in
dry-run mode, printed instead. -/
inductive Event where
  | exec (q : Sql)
  | dryPrint (q : Sql)
deriving DecidableEq

def Event.sql : Event → Sql
  | .exec q => q
  | .dryPrint q => q

def Event.isExec : Event → Bool
  | .exec _ => true
  | .dryPrint _ => false

/-- dbquery routing (line 128): the statement is executed when
`not args.dryrun or ondryrun`, otherwise printed. -/
def dbq (dryrun ondryrun : Bool) (q : Sql) : Event :=
  if !dryrun || ondryrun then .exec q else .dryPrint q

/-- The configuration the two processing functions read. -/
structure Args where
  enforcetime : Bool
  dryrun : Bool
  retries : Nat
  pause_time : Nat
  ignorelist : List String
  halt_time : Int
deriving DecidableEq

/-- Oracles for the outside world: successive time.time() readings
(indexed by reading position) and the rows each catalog query returns.
idx_valid is indexed by the attempt number so the validity flag may change
between retries; rel_size gives the one-column rows of the size lookup. -/
structure Env where
  clock : Nat → Int
  idx_info : String → List (String × Bool)
  idx_def : String → List (String × String)
  idx_valid : Nat → String → List (String × Bool)
  rel_size : String → List Int
  table_indexes : String → List String

/-- The script's global mutable state: the time-exit flag, the run
counters and size totals (lines 185-194), plus the position of the next
clock reading. -/
structure St where
  time_exit : Bool
  tabcount : Nat
  idxcount : Nat
  idxcount_success : Nat
  idxcount_ignored : Nat
  idxcount_retries : Nat
  idxcount_notfound : Nat
  total_idx_size_before : Int
  total_idx_size_after : Int
  clock_pos : Nat
deriving DecidableEq

def St.start : St :=
  { time_exit := false, tabcount := 0, idxcount := 0, idxcount_success := 0
    idxcount_ignored := 0, idxcount_retries := 0, idxcount_notfound := 0
    total_idx_size_before := 0, total_idx_size_after := 0, clock_pos := 0 }

/-- Result of a unit of work: normal return, or an unhandled exception
propagating out (fatal terminates the whole run).  Both carry the state
reached and the statements issued so far. -/
inductive PRes where
  | ok (st : St) (tr : List Event)
  | fatal (st : St) (tr : List Event)
deriving DecidableEq

def PRes.st : PRes → St
  | .ok s _ => s
  | .fatal s _ => s

def PRes.trace : PRes → List Event
  | .ok _ t => t
  | .fatal _ t => t

def PRes.isFatal : PRes → Bool
  | .ok _ _ => false
  | .fatal _ _ => true

/-- Result of one body of the retry loop (one attempt, after the loop-top
deadline check). -/
inductive AttemptRes where
  | fatal (st : St) (tr : List Event)
  | succeeded (st : St) (tr : List Event)
  | failed (st : St) (tr : List Event)
deriving DecidableEq

/-- Primary-key swap protocol (lines 300-307): statistics refresh, then
one transaction holding drop-constraint, rename, add-primary-key-using-
index. -/
def pkSwap (dryrun : Bool) (tbl idx_name : String) : List Event :=
  [dbq dryrun false (.analyse tbl),
   dbq dryrun false .beginTxn,
   dbq dryrun false (.dropConstraint tbl idx_name),
   dbq dryrun false (.renameIdx (idx_name ++ "_new") idx_name),
   dbq dryrun false (.addPkUsingIndex tbl idx_name),
   dbq dryrun false .commitTxn]

/-- Plain index swap protocol (lines 308-312): statistics refresh, non-
blocking drop of the original, rename; no transaction wrapper. -/
def plainSwap (dryrun : Bool) (tbl idx_name : String) : List Event :=
  [dbq dryrun false (.analyse tbl),
   dbq dryrun false (.dropIdxConc idx_name),
   dbq dryrun false (.renameIdx (idx_name ++ "_new") idx_name)]

/-- Tail of the valid branch (lines 300-321): choose the swap protocol by
primary-key membership, run the final statistics refresh, sleep the
configured pause (no statement), increment the success counter, break. -/
def finishValid (args : Args) (idx_name tbl : String) (is_pk : Bool)
    (st : St) (tr : List Event) : AttemptRes :=
  let swapTr := if is_pk then pkSwap args.dryrun tbl idx_name
                else plainSwap args.dryrun tbl idx_name
  .succeeded {st with idxcount_success := st.idxcount_success + 1}
    (tr ++ swapTr ++ [dbq args.dryrun false (.analyse tbl)])

/-- Valid branch (lines 284-321): size before (query always executed, row
fetched unguardedly), size after (query routed through dry-run; on
dry-run the fetch is skipped and the before size is reused), then the
swap. -/
def validBranch (args : Args) (env : Env) (idx_name tbl : String)
    (is_pk : Bool) (st : St) (tr : List Event) : AttemptRes :=
  let tr := tr ++ [dbq args.dryrun true (.relSize idx_name)]
  match (env.rel_size idx_name).head? with
  | none => .fatal st tr
  | some before =>
    let st := {st with total_idx_size_before := st.total_idx_size_before + before}
    let tr := tr ++ [dbq args.dryrun false (.relSize (idx_name ++ "_new"))]
    if args.dryrun then
      finishValid args idx_name tbl is_pk
        {st with total_idx_size_after := st.total_idx_size_after + before} tr
    else
      match (env.rel_size (idx_name ++ "_new")).head? with
      | none => .fatal st tr
      | some after =>
        finishValid args idx_name tbl is_pk
          {st with total_idx_size_after := st.total_idx_size_after + after} tr

/-- One attempt body (lines 268-334, after the loop-top deadline check):
defensive drop-if-exists of the replacement, the non-blocking build, the
validity query; the validity value is true on dry-run (short-circuit, no
fetch), otherwise the unguarded first row of the result.  On invalid:
non-blocking drop of the replacement, pause, retry counter. -/
def attemptBody (args : Args) (env : Env) (idx_name tbl : String)
    (is_pk : Bool) (idx_create_new : String) (attempt : Nat) (st : St) :
    AttemptRes :=
  let name_new := idx_name ++ "_new"
  let tr := [dbq args.dryrun false (.dropIdxConcIfExists name_new),
             dbq args.dryrun false (.createIdxConc idx_create_new),
             dbq args.dryrun true (.idxValid name_new)]
  if args.dryrun then
    validBranch args env idx_name tbl is_pk st tr
  else
    match (env.idx_valid attempt name_new).head? with
    | none => .fatal st tr
    | some row =>
      if row.2 then
        validBranch args env idx_name tbl is_pk st tr
      else
        let tr := tr ++ [dbq args.dryrun false (.dropIdxConc name_new)]
        .failed {st with idxcount_retries := st.idxcount_retries + 1} tr

/-- The retry loop (line 261): attempts numbered from 1, fuel is the
number of iterations left out of args.retries; each iteration starts with
the deadline check that sets the time-exit flag and breaks. -/
def attemptLoop (args : Args) (env : Env) (idx_name tbl : String)
    (is_pk : Bool) (idx_create_new : String) :
    Nat → Nat → St → List Event → PRes
  | _, 0, st, tr => .ok st tr
  | attempt, fuel + 1, st, tr =>
    let now := env.clock st.clock_pos
    let st1 := {st with clock_pos := st.clock_pos + 1}
    if args.halt_time ≤ now then
      .ok {st1 with time_exit := true} tr
    else
      match attemptBody args env idx_name tbl is_pk idx_create_new attempt st1 with
      | .fatal st2 tr2 => .fatal st2 (tr ++ tr2)
      | .succeeded st2 tr2 => .ok st2 (tr ++ tr2)
      | .failed st2 tr2 =>
        attemptLoop args env idx_name tbl is_pk idx_create_new
          (attempt + 1) fuel st2 (tr ++ tr2)

/-- process_index (line 198): deadline check, index counter, ignore-list
check, optional statement-timeout setting, resolution (exactly one row or
not-found), definition fetch (unguarded first row), then the retry
loop. -/
def process_index (args : Args) (env : Env) (idx_name : String) (st : St) :
    PRes :=
  let now := env.clock st.clock_pos
  let st := {st with clock_pos := st.clock_pos + 1}
  if args.halt_time ≤ now then
    .ok {st with time_exit := true} []
  else
    let st := {st with idxcount := st.idxcount + 1}
    if args.ignorelist.contains idx_name then
      .ok {st with idxcount_ignored := st.idxcount_ignored + 1} []
    else
      let (st, tr) :=
        if args.enforcetime then
          let now2 := env.clock st.clock_pos
          ({st with clock_pos := st.clock_pos + 1},
           [dbq args.dryrun false (.setTimeout ((args.halt_time - now2) + 30))])
        else (st, ([] : List Event))
      let tr := tr ++ [dbq args.dryrun true (.idxInfo idx_name)]
      match env.idx_info idx_name with
      | [(tbl, is_pk)] =>
        let tr := tr ++ [dbq args.dryrun true (.idxDef idx_name)]
        match (env.idx_def idx_name).head? with
        | none => .fatal st tr
        | some d =>
          attemptLoop args env idx_name tbl is_pk d.2 1 args.retries st tr
      | _ =>
        .ok {st with idxcount_notfound := st.idxcount_notfound + 1} tr

/-- The table loop over the listed index names (line 356), threading state
and trace through process_index and propagating a fatal outcome. -/
def processIndexList (args : Args) (env : Env) :
    List String → St → List Event → PRes
  | [], st, tr => .ok st tr
  | n :: rest, st, tr =>
    match process_index args env n st with
    | .fatal st2 tr2 => .fatal st2 (tr ++ tr2)
    | .ok st2 tr2 => processIndexList args env rest st2 (tr ++ tr2)

/-- process_table (line 337): deadline check, table counter, index name
listing (always executed), then each listed index through
process_index. -/
def process_table (args : Args) (env : Env) (tbl : String) (st : St) :
    PRes :=
  let now := env.clock st.clock_pos
  let st := {st with clock_pos := st.clock_pos + 1}
  if args.halt_time ≤ now then
    .ok {st with time_exit := true} []
  else
    let st := {st with tabcount := st.tabcount + 1}
    processIndexList args env (env.table_indexes tbl) st
      [dbq args.dryrun true (.idxNames tbl)]

/-- What the database reports back for a single executed statement. -/
inductive DbOutcome where
  | ok
  | queryCancelled
  | dbError
  | unexpected
deriving DecidableEq

/-- Observable result of dbquery when it returns normally: whether the
statement was sent (vs printed) and whether a problem was reported. -/
structure DbqRes where
  executed : Bool
  reported : Bool
deriving DecidableEq

/-- dbquery (lines 128-141) as a standalone function of the statement
outcome: a cancelled query and a generic database error are reported and
absorbed (normal return, statement treated as a no-op); any other failure
is re-raised and propagates. -/
def dbquery (dryrun ondryrun : Bool) (outcome : DbOutcome) :
    Except Unit DbqRes :=
  if !dryrun || ondryrun then
    match outcome with
    | .ok => .ok ⟨true, false⟩
    | .queryCancelled => .ok ⟨true, true⟩
    | .dbError => .ok ⟨true, true⟩
    | .unexpected => .error ()
  else
    .ok ⟨false, false⟩

/-- A build statement for the replacement (the non-blocking create). -/
def isBuildEvt (e : Event) : Bool :=
  match e.sql with
  | .createIdxConc _ => true
  | _ => false

/-- A rename of a replacement onto an original name: the marker of a
performed swap (exactly one rename occurs in either swap protocol). -/
def isRenameEvt (e : Event) : Bool :=
  match e.sql with
  | .renameIdx _ _ => true
  | _ => false

/-- A statement belonging to either swap protocol for the index named
idx_name: the statistics refresh, the transactional primary-key steps,
the rename, or a non-blocking drop of the original (a drop of the derived
replacement name is retry cleanup, not a swap statement). -/
def isSwapStmt (idx_name : String) (e : Event) : Bool :=
  match e.sql with
  | .analyse _ => true
  | .beginTxn => true
  | .commitTxn => true
  | .dropConstraint _ _ => true
  | .addPkUsingIndex _ _ => true
  | .renameIdx _ _ => true
  | .dropIdxConc n => n = idx_name
  | _ => false

/-- Dry-run discipline for one event of the trace of an index named n:
an executed statement must be a read-only lookup, and a printed statement
must be mutating, except for the after-size lookup on the replacement
name, which the code routes through the dry-run gate (its value is
defaulted to the before size instead). -/
def dryOk (n : String) (e : Event) : Bool :=
  match e with
  | .exec q => q.isReadOnly
  | .dryPrint q => !q.isReadOnly || q = .relSize (n ++ "_new")

/-- Catalog effect of one executed statement on the existence of the
replacement index (the name with the fixed suffix): the non-blocking
build creates it, a non-blocking drop of it removes it, renaming it away
removes it.  Printed statements touch nothing.  Within the trace of one
process_index call the only build statement is the one for this
replacement, per the definition-fetch query that derived its text. -/
def liveStep (name_new : String) (live : Bool) (e : Event) : Bool :=
  match e with
  | .exec (.createIdxConc _) => true
  | .exec (.dropIdxConc n) => if n = name_new then false else live
  | .exec (.dropIdxConcIfExists n) => if n = name_new then false else live
  | .exec (.renameIdx o _) => if o = name_new then false else live
  | _ => live

/-- Whether a replacement index under name_new exists after the trace,
starting from a catalog without it. -/
def replacementLive (name_new : String) (tr : List Event) : Bool :=
  tr.foldl (liveStep name_new) false

/-- The four statements of one failed attempt (build found invalid and
dropped), in order. -/
def invalidBlock (idx_name d : String) : List Event :=
  [.exec (.dropIdxConcIfExists (idx_name ++ "_new")),
   .exec (.createIdxConc d),
   .exec (.idxValid (idx_name ++ "_new")),
   .exec (.dropIdxConc (idx_name ++ "_new"))]

section Concrete

/-- Concrete names for witness runs. -/
def iName : String := "ix"

def tblName : String := "tbl"

def defOrig : String := "CREATE INDEX ix ON tbl (c)"

def defNew : String := "CREATE INDEX CONCURRENTLY ix_new ON tbl (c)"

/-- A healthy environment: the clock stands still at 0, resolution finds
one non-primary-key row, every build comes out valid, sizes are
present. -/
def cEnv : Env :=
  { clock := fun _ => 0
    idx_info := fun _ => [(tblName, false)]
    idx_def := fun _ => [(defOrig, defNew)]
    idx_valid := fun _ _ => [(iName ++ "_new", true)]
    rel_size := fun _ => [64]
    table_indexes := fun _ => [iName] }

/-- Like cEnv but every validity check comes back false. -/
def cEnvInvalid : Env :=
  { cEnv with idx_valid := fun _ _ => [(iName ++ "_new", false)] }

/-- Like cEnv but the validity query returns no row at all (the build
failed and its failure was absorbed, so no index exists under the
replacement name). -/
def cEnvNoRow : Env :=
  { cEnv with idx_valid := fun _ _ => [] }

/-- An environment whose table listing is empty (missing or index-less
table). -/
def cEnvNoIdx : Env :=
  { cEnv with table_indexes := fun _ => [] }

/-- Default-ish concrete arguments: two retries, no dry-run, deadline far
away. -/
def cArgs : Args :=
  { enforcetime := false, dryrun := false, retries := 2, pause_time := 0
    ignorelist := [], halt_time := 1000 }

def cArgsEnforce : Args := { cArgs with enforcetime := true }

def cArgsDry : Args := { cArgs with dryrun := true }

def cArgsIgnore : Args := { cArgs with ignorelist := [iName] }

/-- Arguments already past their deadline (the clock reads 0). -/
def cArgsExpired : Args := { cArgs with halt_time := 0 }

end Concrete

/-! Helper lemmas shared by the claim theorems. -/

theorem append_new_ne (n : String) : ¬ (n ++ "_new" = n) := by
  intro h
  have hl := congrArg String.length h
  rw [String.length_append] at hl
  have h4 : ("_new" : String).length = 4 := rfl
  rw [h4] at hl
  omega

/-- The valid branch of one attempt, outside dry-run, with the size rows
present: the full statement sequence and state change. -/
theorem attemptBody_valid_eq (args : Args) (env : Env) (n tbl : String)
    (pk : Bool) (d : String) (a : Nat) (st : St) (s : String)
    (vrest : List (String × Bool)) (b : Int) (brest : List Int)
    (aft : Int) (arest : List Int)
    (hdr : args.dryrun = false)
    (hval : env.idx_valid a (n ++ "_new") = (s, true) :: vrest)
    (hb : env.rel_size n = b :: brest)
    (ha : env.rel_size (n ++ "_new") = aft :: arest) :
    attemptBody args env n tbl pk d a st =
      .succeeded
        {st with total_idx_size_before := st.total_idx_size_before + b,
                 total_idx_size_after := st.total_idx_size_after + aft,
                 idxcount_success := st.idxcount_success + 1}
        ([.exec (.dropIdxConcIfExists (n ++ "_new")),
          .exec (.createIdxConc d),
          .exec (.idxValid (n ++ "_new")),
          .exec (.relSize n),
          .exec (.relSize (n ++ "_new"))]
         ++ (if pk then pkSwap false tbl n else plainSwap false tbl n)
         ++ [.exec (.analyse tbl)]) := by
  cases pk <;>
    simp [attemptBody, validBranch, finishValid, pkSwap, plainSwap, dbq,
      hdr, hval, hb, ha]

/-- The invalid branch of one attempt, outside dry-run: the invalid
replacement is dropped and the retry counter incremented. -/
theorem attemptBody_invalid_eq (args : Args) (env : Env) (n tbl : String)
    (pk : Bool) (d : String) (a : Nat) (st : St) (s : String)
    (vrest : List (String × Bool))
    (hdr : args.dryrun = false)
    (hval : env.idx_valid a (n ++ "_new") = (s, false) :: vrest) :
    attemptBody args env n tbl pk d a st =
      .failed {st with idxcount_retries := st.idxcount_retries + 1}
        (invalidBlock n d) := by
  simp [attemptBody, invalidBlock, dbq, hdr, hval]

/-- The attempt with no validity row, outside dry-run: the unguarded
first-row read fails. -/
theorem attemptBody_norow_eq (args : Args) (env : Env) (n tbl : String)
    (pk : Bool) (d : String) (a : Nat) (st : St)
    (hdr : args.dryrun = false)
    (hval : env.idx_valid a (n ++ "_new") = []) :
    attemptBody args env n tbl pk d a st =
      .fatal st
        [.exec (.dropIdxConcIfExists (n ++ "_new")),
         .exec (.createIdxConc d),
         .exec (.idxValid (n ++ "_new"))] := by
  simp [attemptBody, dbq, hdr, hval]

/-- The retry loop only ever appends to the trace it was given. -/
theorem attemptLoop_trace_extends (args : Args) (env : Env) (n tbl : String)
    (pk : Bool) (d : String) :
    ∀ fuel attempt st tr, ∃ rest,
      (attemptLoop args env n tbl pk d attempt fuel st tr).trace = tr ++ rest := by
  intro fuel
  induction fuel with
  | zero => intro attempt st tr; exact ⟨[], by simp [attemptLoop, PRes.trace]⟩
  | succ f ih =>
    intro attempt st tr
    rw [attemptLoop]
    by_cases h : args.halt_time ≤ env.clock st.clock_pos
    · exact ⟨[], by simp [h, PRes.trace]⟩
    · simp only [h, if_false]
      cases hb : attemptBody args env n tbl pk d attempt
          {st with clock_pos := st.clock_pos + 1} with
      | fatal st2 tr2 => exact ⟨tr2, by simp [PRes.trace]⟩
      | succeeded st2 tr2 => exact ⟨tr2, by simp [PRes.trace]⟩
      | failed st2 tr2 =>
        obtain ⟨rest, hrest⟩ := ih (attempt + 1) st2 (tr ++ tr2)
        exact ⟨tr2 ++ rest, by simp [hrest]⟩

/-- If every attempt comes back invalid and the clock never reaches the
deadline, the retry loop runs all its iterations, adds one retry per
iteration, and its trace is the given trace followed by one invalid
block per iteration. -/
theorem attemptLoop_all_invalid (args : Args) (env : Env) (n tbl : String)
    (pk : Bool) (d : String)
    (hdr : args.dryrun = false)
    (hval : ∀ a, ∃ s vrest, env.idx_valid a (n ++ "_new") = (s, false) :: vrest)
    (hclock : ∀ p, env.clock p < args.halt_time) :
    ∀ fuel attempt st tr,
      attemptLoop args env n tbl pk d attempt fuel st tr =
        .ok {st with idxcount_retries := st.idxcount_retries + fuel,
                     clock_pos := st.clock_pos + fuel}
          (tr ++ (List.replicate fuel (invalidBlock n d)).flatten) := by
  intro fuel
  induction fuel with
  | zero => intro attempt st tr; simp [attemptLoop]
  | succ f ih =>
    intro attempt st tr
    obtain ⟨s, vrest, hv⟩ := hval attempt
    have hnot : ¬ args.halt_time ≤ env.clock st.clock_pos :=
      not_le.mpr (hclock st.clock_pos)
    rw [attemptLoop]
    simp only [hnot, if_false]
    rw [attemptBody_invalid_eq args env n tbl pk d attempt _ s vrest hdr hv]
    simp [ih, List.replicate_succ, St.mk.injEq]
    omega

/-- A failed attempt issues no swap protocol statement: its drop targets
the derived replacement name, not the original. -/
theorem invalidBlock_no_swap (n d : String) :
    (invalidBlock n d).filter (isSwapStmt n) = [] := by
  simp [invalidBlock, isSwapStmt, Event.sql, List.filter, append_new_ne n]

/-- Any number of failed-attempt blocks contain no swap protocol
statement. -/
theorem flatten_replicate_invalid_no_swap (n d : String) (k : Nat) :
    ((List.replicate k (invalidBlock n d)).flatten.filter (isSwapStmt n)) = [] := by
  induction k with
  | zero => simp
  | succ m ih =>
    simp [List.replicate_succ, List.filter_append, ih, invalidBlock_no_swap]

/-- After one failed-attempt block the replacement does not exist,
whatever existed before: the block ends by dropping it. -/
theorem foldl_live_invalidBlock (n d : String) (b : Bool) :
    List.foldl (liveStep (n ++ "_new")) b (invalidBlock n d) = false := by
  simp [invalidBlock, liveStep]

/-- After one or more failed-attempt blocks the replacement does not
exist. -/
theorem foldl_live_flatten_replicate (n d : String) (k : Nat) (b : Bool) :
    List.foldl (liveStep (n ++ "_new")) b
      (List.replicate (k + 1) (invalidBlock n d)).flatten = false := by
  induction k generalizing b with
  | zero => simp [foldl_live_invalidBlock]
  | succ m ih =>
    rw [List.replicate_succ, List.flatten_cons, List.foldl_append]
    exact ih _

/-- Dry-run attempt with no before-size row: the fetch of the before size
still fails (that lookup is executed and read even on dry-run). -/
theorem attemptBody_dry_norow_eq (args : Args) (env : Env) (n tbl : String)
    (pk : Bool) (d : String) (a : Nat) (st : St)
    (hdr : args.dryrun = true)
    (hb : env.rel_size n = []) :
    attemptBody args env n tbl pk d a st =
      .fatal st
        [.dryPrint (.dropIdxConcIfExists (n ++ "_new")),
         .dryPrint (.createIdxConc d),
         .exec (.idxValid (n ++ "_new")),
         .exec (.relSize n)] := by
  simp [attemptBody, validBranch, dbq, hdr, hb]

/-- Dry-run attempt with a before-size row: validity is taken as true
without a fetch, the after size defaults to the before size, the swap
statements are printed, the success counter is incremented. -/
theorem attemptBody_dry_eq (args : Args) (env : Env) (n tbl : String)
    (pk : Bool) (d : String) (a : Nat) (st : St) (b : Int) (brest : List Int)
    (hdr : args.dryrun = true)
    (hb : env.rel_size n = b :: brest) :
    attemptBody args env n tbl pk d a st =
      .succeeded
        {st with total_idx_size_before := st.total_idx_size_before + b,
                 total_idx_size_after := st.total_idx_size_after + b,
                 idxcount_success := st.idxcount_success + 1}
        ([.dryPrint (.dropIdxConcIfExists (n ++ "_new")),
          .dryPrint (.createIdxConc d),
          .exec (.idxValid (n ++ "_new")),
          .exec (.relSize n),
          .dryPrint (.relSize (n ++ "_new"))]
         ++ (if pk then pkSwap true tbl n else plainSwap true tbl n)
         ++ [.dryPrint (.analyse tbl)]) := by
  cases pk <;>
    simp [attemptBody, validBranch, finishValid, pkSwap, plainSwap, dbq,
      hdr, hb]

/-- On dry-run, the retry loop preserves the dry-run discipline of the
trace, never counts a retry (validity is taken as true), and adds the
same amount to the after-size total as to the before-size total. -/
theorem attemptLoop_dry (args : Args) (env : Env) (n tbl : String)
    (pk : Bool) (d : String) (hdr : args.dryrun = true) :
    ∀ fuel attempt st tr,
      ((attemptLoop args env n tbl pk d attempt fuel st tr).trace.all (dryOk n)
        = tr.all (dryOk n))
      ∧ (attemptLoop args env n tbl pk d attempt fuel st tr).st.idxcount_retries
          = st.idxcount_retries
      ∧ ((attemptLoop args env n tbl pk d attempt fuel st tr).st.total_idx_size_after
            - st.total_idx_size_after
          = (attemptLoop args env n tbl pk d attempt fuel st tr).st.total_idx_size_before
            - st.total_idx_size_before) := by
  intro fuel attempt st tr
  cases fuel with
  | zero => simp [attemptLoop, PRes.trace, PRes.st]
  | succ f =>
    rw [attemptLoop]
    by_cases h : args.halt_time ≤ env.clock st.clock_pos
    · simp [h, PRes.trace, PRes.st]
    · simp only [h, if_false]
      cases hb : env.rel_size n with
      | nil =>
        rw [attemptBody_dry_norow_eq args env n tbl pk d attempt _ hdr hb]
        simp [PRes.trace, PRes.st, dryOk, Sql.isReadOnly]
      | cons b brest =>
        rw [attemptBody_dry_eq args env n tbl pk d attempt _ b brest hdr hb]
        cases pk <;>
          simp [PRes.trace, PRes.st, pkSwap, plainSwap, dbq, dryOk,
            Sql.isReadOnly]

/-- process_index, not expired, not ignored, resolution finds exactly one
row and the definition fetch has a first row: control reaches the retry
loop with the statement-timeout setting (when enforced) and the two
lookups already in the trace. -/
theorem process_index_resolved (args : Args) (env : Env) (n : String)
    (st : St) (tbl : String) (pk : Bool) (dd : String × String)
    (drest : List (String × String))
    (hc : env.clock st.clock_pos < args.halt_time)
    (hig : args.ignorelist.contains n = false)
    (hinfo : env.idx_info n = [(tbl, pk)])
    (hdef : env.idx_def n = dd :: drest) :
    process_index args env n st =
      if args.enforcetime then
        attemptLoop args env n tbl pk dd.2 1 args.retries
          {st with idxcount := st.idxcount + 1, clock_pos := st.clock_pos + 2}
          [dbq args.dryrun false
             (.setTimeout ((args.halt_time - env.clock (st.clock_pos + 1)) + 30)),
           dbq args.dryrun true (.idxInfo n), dbq args.dryrun true (.idxDef n)]
      else
        attemptLoop args env n tbl pk dd.2 1 args.retries
          {st with idxcount := st.idxcount + 1, clock_pos := st.clock_pos + 1}
          [dbq args.dryrun true (.idxInfo n), dbq args.dryrun true (.idxDef n)] := by
  have h : ¬ args.halt_time ≤ env.clock st.clock_pos := not_le.mpr hc
  have hig2 : ¬ n ∈ args.ignorelist := by simpa using hig
  unfold process_index
  by_cases he : args.enforcetime <;> simp [h, hig2, he, hinfo, hdef]

/-- process_index, not expired, not ignored, resolution returns no row:
counted as not found, only the lookups (and the optional timeout setting)
were issued. -/
theorem process_index_noinfo (args : Args) (env : Env) (n : String)
    (st : St)
    (hc : env.clock st.clock_pos < args.halt_time)
    (hig : args.ignorelist.contains n = false)
    (hinfo : env.idx_info n = []) :
    process_index args env n st =
      if args.enforcetime then
        .ok {st with idxcount := st.idxcount + 1,
                     idxcount_notfound := st.idxcount_notfound + 1,
                     clock_pos := st.clock_pos + 2}
          [dbq args.dryrun false
             (.setTimeout ((args.halt_time - env.clock (st.clock_pos + 1)) + 30)),
           dbq args.dryrun true (.idxInfo n)]
      else
        .ok {st with idxcount := st.idxcount + 1,
                     idxcount_notfound := st.idxcount_notfound + 1,
                     clock_pos := st.clock_pos + 1}
          [dbq args.dryrun true (.idxInfo n)] := by
  have h : ¬ args.halt_time ≤ env.clock st.clock_pos := not_le.mpr hc
  have hig2 : ¬ n ∈ args.ignorelist := by simpa using hig
  unfold process_index
  by_cases he : args.enforcetime <;> simp [h, hig2, he, hinfo]

/-- process_index, not expired, not ignored, resolution returns two or
more rows: also counted as not found. -/
theorem process_index_multiinfo (args : Args) (env : Env) (n : String)
    (st : St) (r1 r2 : String × Bool) (rest : List (String × Bool))
    (hc : env.clock st.clock_pos < args.halt_time)
    (hig : args.ignorelist.contains n = false)
    (hinfo : env.idx_info n = r1 :: r2 :: rest) :
    process_index args env n st =
      if args.enforcetime then
        .ok {st with idxcount := st.idxcount + 1,
                     idxcount_notfound := st.idxcount_notfound + 1,
                     clock_pos := st.clock_pos + 2}
          [dbq args.dryrun false
             (.setTimeout ((args.halt_time - env.clock (st.clock_pos + 1)) + 30)),
           dbq args.dryrun true (.idxInfo n)]
      else
        .ok {st with idxcount := st.idxcount + 1,
                     idxcount_notfound := st.idxcount_notfound + 1,
                     clock_pos := st.clock_pos + 1}
          [dbq args.dryrun true (.idxInfo n)] := by
  have h : ¬ args.halt_time ≤ env.clock st.clock_pos := not_le.mpr hc
  have hig2 : ¬ n ∈ args.ignorelist := by simpa using hig
  unfold process_index
  by_cases he : args.enforcetime <;> simp [h, hig2, he, hinfo]

/-- process_index, not expired, not ignored, one resolution row but an
empty definition-fetch result: the unguarded first-row read fails. -/
theorem process_index_nodef (args : Args) (env : Env) (n : String)
    (st : St) (tbl : String) (pk : Bool)
    (hc : env.clock st.clock_pos < args.halt_time)
    (hig : args.ignorelist.contains n = false)
    (hinfo : env.idx_info n = [(tbl, pk)])
    (hdef : env.idx_def n = []) :
    process_index args env n st =
      if args.enforcetime then
        .fatal {st with idxcount := st.idxcount + 1,
                        clock_pos := st.clock_pos + 2}
          [dbq args.dryrun false
             (.setTimeout ((args.halt_time - env.clock (st.clock_pos + 1)) + 30)),
           dbq args.dryrun true (.idxInfo n), dbq args.dryrun true (.idxDef n)]
      else
        .fatal {st with idxcount := st.idxcount + 1,
                        clock_pos := st.clock_pos + 1}
          [dbq args.dryrun true (.idxInfo n), dbq args.dryrun true (.idxDef n)] := by
  have h : ¬ args.halt_time ≤ env.clock st.clock_pos := not_le.mpr hc
  have hig2 : ¬ n ∈ args.ignorelist := by simpa using hig
  unfold process_index
  by_cases he : args.enforcetime <;> simp [h, hig2, he, hinfo, hdef]

/-! The claim theorems. -/

/-- C1: for an index whose replacement is found valid, the swap with a
primary key behind it is the statistics refresh followed by one
transaction holding drop-constraint, rename, add-primary-key-using-index;
without one it is the statistics refresh, a non-blocking drop of the
original and a rename with no transaction wrapper; in both cases a final
statistics refresh on the table follows. -/
theorem swap_protocols_by_pk (args : Args) (env : Env) (n tbl : String)
    (pk : Bool) (d : String) (a : Nat) (st : St) (s : String)
    (vrest : List (String × Bool)) (b : Int) (brest : List Int)
    (aft : Int) (arest : List Int)
    (hdr : args.dryrun = false)
    (hval : env.idx_valid a (n ++ "_new") = (s, true) :: vrest)
    (hb : env.rel_size n = b :: brest)
    (ha : env.rel_size (n ++ "_new") = aft :: arest) :
    attemptBody args env n tbl pk d a st =
      .succeeded
        {st with total_idx_size_before := st.total_idx_size_before + b,
                 total_idx_size_after := st.total_idx_size_after + aft,
                 idxcount_success := st.idxcount_success + 1}
        ([.exec (.dropIdxConcIfExists (n ++ "_new")),
          .exec (.createIdxConc d),
          .exec (.idxValid (n ++ "_new")),
          .exec (.relSize n),
          .exec (.relSize (n ++ "_new"))]
         ++ (if pk then pkSwap false tbl n else plainSwap false tbl n)
         ++ [.exec (.analyse tbl)])
    ∧ pkSwap false tbl n =
        [.exec (.analyse tbl), .exec .beginTxn, .exec (.dropConstraint tbl n),
         .exec (.renameIdx (n ++ "_new") n), .exec (.addPkUsingIndex tbl n),
         .exec .commitTxn]
    ∧ plainSwap false tbl n =
        [.exec (.analyse tbl), .exec (.dropIdxConc n),
         .exec (.renameIdx (n ++ "_new") n)]
    ∧ Event.exec Sql.beginTxn ∉ plainSwap false tbl n
    ∧ Event.exec Sql.commitTxn ∉ plainSwap false tbl n := by
  refine ⟨attemptBody_valid_eq args env n tbl pk d a st s vrest b brest
      aft arest hdr hval hb ha, ?_, ?_, ?_, ?_⟩
  · simp [pkSwap, dbq]
  · simp [plainSwap, dbq]
  · simp [plainSwap, dbq]
  · simp [plainSwap, dbq]

/-- C2: if the validity check returns true on an attempt still inside the
retry budget (fuel left is positive and the loop-top deadline check
passes), the engine performs exactly one swap (one rename event is
added), increments the success counter exactly once, and makes no further
build attempts (exactly one build statement is added). -/
theorem valid_attempt_swaps_once_and_stops (args : Args) (env : Env)
    (n tbl : String) (pk : Bool) (d : String) (a f : Nat) (st : St)
    (tr : List Event) (s : String) (vrest : List (String × Bool))
    (b : Int) (brest : List Int) (aft : Int) (arest : List Int)
    (hdr : args.dryrun = false)
    (hc : env.clock st.clock_pos < args.halt_time)
    (hval : env.idx_valid a (n ++ "_new") = (s, true) :: vrest)
    (hb : env.rel_size n = b :: brest)
    (ha : env.rel_size (n ++ "_new") = aft :: arest) :
    (attemptLoop args env n tbl pk d a (f + 1) st tr).isFatal = false
    ∧ (attemptLoop args env n tbl pk d a (f + 1) st tr).st.idxcount_success
        = st.idxcount_success + 1
    ∧ ((attemptLoop args env n tbl pk d a (f + 1) st tr).trace.filter
          isBuildEvt).length
        = (tr.filter isBuildEvt).length + 1
    ∧ ((attemptLoop args env n tbl pk d a (f + 1) st tr).trace.filter
          isRenameEvt).length
        = (tr.filter isRenameEvt).length + 1 := by
  have h : ¬ args.halt_time ≤ env.clock st.clock_pos := not_le.mpr hc
  rw [attemptLoop]
  simp only [h, if_false]
  rw [attemptBody_valid_eq args env n tbl pk d a _ s vrest b brest
      aft arest hdr hval hb ha]
  cases pk <;>
    simp [PRes.isFatal, PRes.st, PRes.trace, List.filter_append,
      pkSwap, plainSwap, dbq, isBuildEvt, isRenameEvt, Event.sql]

/-- C3 (amended): if the validity check returns false on every attempt
and the deadline never fires, the loop consumes its whole budget, counts
a retry per attempt, issues no swap protocol statement, and leaves no
stale replacement behind - every failed attempt drops its invalid
replacement before retrying or giving up. -/
theorem retries_exhausted_no_swap_no_replacement (args : Args) (env : Env)
    (n tbl : String) (pk : Bool) (d : String) (f : Nat) (st : St)
    (tr : List Event)
    (hdr : args.dryrun = false)
    (hval : ∀ a, ∃ s vrest, env.idx_valid a (n ++ "_new") = (s, false) :: vrest)
    (hclock : ∀ p, env.clock p < args.halt_time) :
    attemptLoop args env n tbl pk d 1 (f + 1) st tr =
      .ok {st with idxcount_retries := st.idxcount_retries + (f + 1),
                   clock_pos := st.clock_pos + (f + 1)}
        (tr ++ (List.replicate (f + 1) (invalidBlock n d)).flatten)
    ∧ ((tr ++ (List.replicate (f + 1) (invalidBlock n d)).flatten).filter
          (isSwapStmt n))
        = tr.filter (isSwapStmt n)
    ∧ replacementLive (n ++ "_new")
        (tr ++ (List.replicate (f + 1) (invalidBlock n d)).flatten) = false := by
  refine ⟨attemptLoop_all_invalid args env n tbl pk d hdr hval hclock
      (f + 1) 1 st tr, ?_, ?_⟩
  · simp [List.filter_append, flatten_replicate_invalid_no_swap]
    intro e he
    simp only [invalidBlock, List.mem_cons, List.not_mem_nil, or_false] at he
    rcases he with rfl | rfl | rfl | rfl <;>
      simp [isSwapStmt, Event.sql, append_new_ne n]
  · unfold replacementLive
    rw [List.foldl_append]
    exact foldl_live_flatten_replicate n d f _

/-- C3 (counterexample to the claim as stated): a concrete exhausted
index - two attempts, both invalid, retry budget 2 - issues no swap
statement and counts two retries, but zero (not one) stale replacement
indexes remain behind, because the cleanup drop runs on the final failed
attempt too. -/
theorem retries_exhausted_cex :
    (process_index cArgs cEnvInvalid iName St.start).st.idxcount_retries = 2
    ∧ ((process_index cArgs cEnvInvalid iName St.start).trace.filter
        (isSwapStmt iName)) = []
    ∧ replacementLive (iName ++ "_new")
        (process_index cArgs cEnvInvalid iName St.start).trace = false := by
  decide

/-- C4: once the deadline has passed, a fresh index or table unit of work
returns immediately with the time-exit flag set, before any counter
update or catalog access; and the body of one retry attempt never reads
the clock, so a started attempt runs to completion and expiry is only
observed at the top of the loop. -/
theorem deadline_checked_at_unit_start_and_loop_top (args : Args)
    (env : Env) (n t : String) (st : St) :
    (args.halt_time ≤ env.clock st.clock_pos →
      process_index args env n st =
        .ok {st with time_exit := true, clock_pos := st.clock_pos + 1} [])
    ∧ (args.halt_time ≤ env.clock st.clock_pos →
      process_table args env t st =
        .ok {st with time_exit := true, clock_pos := st.clock_pos + 1} [])
    ∧ (∀ c tbl pk d a st2,
        attemptBody args {env with clock := c} n tbl pk d a st2
          = attemptBody args env n tbl pk d a st2) := by
  refine ⟨?_, ?_, ?_⟩
  · intro h
    unfold process_index
    simp [h]
  · intro h
    unfold process_table
    simp [h]
  · intro c tbl pk d a st2
    rfl

/-- C5: an index on the ignore list never puts a single statement in the
trace; when the deadline has not passed, processing it increments the
seen and ignored counters and returns. -/
theorem ignored_index_no_mutation (args : Args) (env : Env) (n : String)
    (st : St) (hig : args.ignorelist.contains n = true) :
    (process_index args env n st).trace = []
    ∧ (env.clock st.clock_pos < args.halt_time →
        process_index args env n st =
          .ok {st with idxcount := st.idxcount + 1,
                       idxcount_ignored := st.idxcount_ignored + 1,
                       clock_pos := st.clock_pos + 1} []) := by
  have hig2 : n ∈ args.ignorelist := by simpa using hig
  constructor
  · unfold process_index
    by_cases h : args.halt_time ≤ env.clock st.clock_pos
    · simp [h, PRes.trace]
    · simp [h, hig2, PRes.trace]
  · intro hc
    have h : ¬ args.halt_time ≤ env.clock st.clock_pos := not_le.mpr hc
    unfold process_index
    simp [h, hig2]

/-- C6: with time enforcement on, a processed (not expired, not ignored)
index first puts the statement-timeout setting in the trace, computed as
the seconds remaining to the deadline at the second clock reading plus
the fixed 30-second grace, so it precedes every other statement,
including the non-blocking build. -/
theorem enforce_time_sets_statement_timeout_first (args : Args) (env : Env)
    (n : String) (st : St)
    (he : args.enforcetime = true)
    (hc : env.clock st.clock_pos < args.halt_time)
    (hig : args.ignorelist.contains n = false) :
    ∃ rest, (process_index args env n st).trace =
      dbq args.dryrun false
        (.setTimeout ((args.halt_time - env.clock (st.clock_pos + 1)) + 30))
        :: rest := by
  rcases hinfo : env.idx_info n with _ | ⟨⟨tbl, pk⟩, tl⟩
  · rw [process_index_noinfo args env n st hc hig hinfo]
    exact ⟨[dbq args.dryrun true (.idxInfo n)], by simp [he, PRes.trace]⟩
  · rcases tl with _ | ⟨r2, rest2⟩
    · rcases hdef : env.idx_def n with _ | ⟨dd, drest⟩
      · rw [process_index_nodef args env n st tbl pk hc hig hinfo hdef]
        exact ⟨[dbq args.dryrun true (.idxInfo n),
                dbq args.dryrun true (.idxDef n)], by simp [he, PRes.trace]⟩
      · rw [process_index_resolved args env n st tbl pk dd drest hc hig
          hinfo hdef]
        simp only [he, if_true]
        obtain ⟨ext, hext⟩ := attemptLoop_trace_extends args env n tbl pk
          dd.2 args.retries 1 _ _
        exact ⟨dbq args.dryrun true (.idxInfo n)
                :: dbq args.dryrun true (.idxDef n) :: ext,
               by rw [hext]; simp⟩
    · rw [process_index_multiinfo args env n st ⟨tbl, pk⟩ r2 rest2 hc hig
        hinfo]
      exact ⟨[dbq args.dryrun true (.idxInfo n)], by simp [he, PRes.trace]⟩

/-- C8: for a statement actually sent (not suppressed by dry-run), a
cancelled query and a generic database error are reported and absorbed -
dbquery returns normally and the statement is a no-op - while an
unclassified failure propagates out as fatal; a clean statement returns
normally unreported. -/
theorem dbquery_error_policy (dr od : Bool) (h : (!dr || od) = true) :
    dbquery dr od .queryCancelled = .ok ⟨true, true⟩
    ∧ dbquery dr od .dbError = .ok ⟨true, true⟩
    ∧ dbquery dr od .unexpected = .error ()
    ∧ dbquery dr od .ok = .ok ⟨true, false⟩ := by
  simp [dbquery, h]

/-- C9: outside dry-run, if after the build the catalog holds no row
under the replacement name (for instance because the absorbed build
failure left nothing behind), the unguarded first-row read of the
validity result is an unhandled error that terminates the run. -/
theorem unguarded_validity_fetch_fatal (args : Args) (env : Env)
    (n : String) (st : St) (tbl : String) (pk : Bool)
    (dd : String × String) (drest : List (String × String)) (r : Nat)
    (hdr : args.dryrun = false)
    (hclock : ∀ p, env.clock p < args.halt_time)
    (hig : args.ignorelist.contains n = false)
    (hinfo : env.idx_info n = [(tbl, pk)])
    (hdef : env.idx_def n = dd :: drest)
    (hval : env.idx_valid 1 (n ++ "_new") = [])
    (hr : args.retries = r + 1) :
    (process_index args env n st).isFatal = true := by
  rw [process_index_resolved args env n st tbl pk dd drest (hclock _) hig
    hinfo hdef]
  have h1 : ∀ p, ¬ args.halt_time ≤ env.clock p :=
    fun p => not_le.mpr (hclock p)
  rw [hr]
  split <;>
    (rw [attemptLoop]
     simp only [h1, if_false]
     rw [attemptBody_norow_eq args env n tbl pk dd.2 1 _ hdr hval]
     simp [PRes.isFatal])

/-- C10: a table whose catalog listing returns zero index rows (a missing
table included) is still counted as processed, triggers no index work
beyond the read-only listing query, leaves the not-found and index
counters untouched, and raises nothing. -/
theorem empty_table_counted_no_notfound (args : Args) (env : Env)
    (t : String) (st : St)
    (hc : env.clock st.clock_pos < args.halt_time)
    (hempty : env.table_indexes t = []) :
    process_table args env t st =
      .ok {st with tabcount := st.tabcount + 1, clock_pos := st.clock_pos + 1}
        [dbq args.dryrun true (.idxNames t)]
    ∧ (process_table args env t st).st.idxcount_notfound
        = st.idxcount_notfound
    ∧ (process_table args env t st).st.idxcount = st.idxcount
    ∧ (process_table args env t st).isFatal = false := by
  have h : ¬ args.halt_time ≤ env.clock st.clock_pos := not_le.mpr hc
  unfold process_table
  simp [h, hempty, processIndexList, PRes.st, PRes.isFatal]

/-- C7: on dry-run, every executed statement of the trace is a read-only
lookup and every mutating statement is only printed (the sole read-only
query also printed is the after-size lookup, whose value is defaulted to
the before size instead); the validity check is treated as always true,
so the retry counter never moves; and the after-size total grows exactly
as the before-size total. -/
theorem dry_run_prints_mutations_executes_reads (args : Args) (env : Env)
    (n : String) (st : St) (hdr : args.dryrun = true) :
    ((process_index args env n st).trace.all (dryOk n) = true)
    ∧ (process_index args env n st).st.idxcount_retries
        = st.idxcount_retries
    ∧ ((process_index args env n st).st.total_idx_size_after
          - st.total_idx_size_after
        = (process_index args env n st).st.total_idx_size_before
          - st.total_idx_size_before) := by
  by_cases h1 : args.halt_time ≤ env.clock st.clock_pos
  · unfold process_index
    simp [h1, PRes.trace, PRes.st]
  · have hc : env.clock st.clock_pos < args.halt_time := not_le.mp h1
    by_cases h2 : args.ignorelist.contains n
    · have hig2 : n ∈ args.ignorelist := by simpa using h2
      unfold process_index
      simp [h1, hig2, PRes.trace, PRes.st]
    · have hig : args.ignorelist.contains n = false := by
        simpa using h2
      rcases hinfo : env.idx_info n with _ | ⟨⟨tbl, pk⟩, tl⟩
      · rw [process_index_noinfo args env n st hc hig hinfo]
        by_cases he : args.enforcetime <;>
          simp [he, PRes.trace, PRes.st, dbq, hdr, dryOk, Sql.isReadOnly]
      · rcases tl with _ | ⟨r2, rest2⟩
        · rcases hdef : env.idx_def n with _ | ⟨dd, drest⟩
          · rw [process_index_nodef args env n st tbl pk hc hig hinfo hdef]
            by_cases he : args.enforcetime <;>
              simp [he, PRes.trace, PRes.st, dbq, hdr, dryOk, Sql.isReadOnly]
          · rw [process_index_resolved args env n st tbl pk dd drest hc
              hig hinfo hdef]
            by_cases he : args.enforcetime
            · rw [if_pos he]
              obtain ⟨hall, hret, hdelta⟩ := attemptLoop_dry args env n
                tbl pk dd.2 hdr args.retries 1
                {st with idxcount := st.idxcount + 1,
                         clock_pos := st.clock_pos + 2}
                [dbq args.dryrun false
                   (.setTimeout ((args.halt_time
                     - env.clock (st.clock_pos + 1)) + 30)),
                 dbq args.dryrun true (.idxInfo n),
                 dbq args.dryrun true (.idxDef n)]
              refine ⟨?_, ?_, ?_⟩
              · rw [hall]
                simp [dbq, hdr, dryOk, Sql.isReadOnly]
              · rw [hret]
              · simpa using hdelta
            · rw [if_neg he]
              obtain ⟨hall, hret, hdelta⟩ := attemptLoop_dry args env n
                tbl pk dd.2 hdr args.retries 1
                {st with idxcount := st.idxcount + 1,
                         clock_pos := st.clock_pos + 1}
                [dbq args.dryrun true (.idxInfo n),
                 dbq args.dryrun true (.idxDef n)]
              refine ⟨?_, ?_, ?_⟩
              · rw [hall]
                simp [dbq, hdr, dryOk, Sql.isReadOnly]
              · rw [hret]
              · simpa using hdelta
        · rw [process_index_multiinfo args env n st ⟨tbl, pk⟩ r2 rest2 hc
            hig hinfo]
          by_cases he : args.enforcetime <;>
            simp [he, PRes.trace, PRes.st, dbq, hdr, dryOk, Sql.isReadOnly]

/-! Concrete witnesses for the claim theorems with hypotheses. -/

theorem swap_protocols_by_pk_witness :
    cArgs.dryrun = false
    ∧ cEnv.idx_valid 1 (iName ++ "_new") = (iName ++ "_new", true) :: []
    ∧ cEnv.rel_size iName = 64 :: []
    ∧ cEnv.rel_size (iName ++ "_new") = 64 :: []
    ∧ attemptBody cArgs cEnv iName tblName true defNew 1 St.start =
        .succeeded
          {St.start with
             total_idx_size_before := St.start.total_idx_size_before + 64,
             total_idx_size_after := St.start.total_idx_size_after + 64,
             idxcount_success := St.start.idxcount_success + 1}
          ([.exec (.dropIdxConcIfExists (iName ++ "_new")),
            .exec (.createIdxConc defNew),
            .exec (.idxValid (iName ++ "_new")),
            .exec (.relSize iName),
            .exec (.relSize (iName ++ "_new"))]
           ++ (if true then pkSwap false tblName iName
               else plainSwap false tblName iName)
           ++ [.exec (.analyse tblName)]) := by
  have h := swap_protocols_by_pk cArgs cEnv iName tblName true defNew 1
    St.start (iName ++ "_new") [] 64 [] 64 [] rfl rfl rfl rfl
  exact ⟨rfl, rfl, rfl, rfl, h.1⟩

theorem valid_attempt_swaps_once_witness :
    cArgs.dryrun = false
    ∧ cEnv.clock St.start.clock_pos < cArgs.halt_time
    ∧ (attemptLoop cArgs cEnv iName tblName false defNew 1 1 St.start
        []).isFatal = false
    ∧ (attemptLoop cArgs cEnv iName tblName false defNew 1 1 St.start
        []).st.idxcount_success = St.start.idxcount_success + 1
    ∧ ((attemptLoop cArgs cEnv iName tblName false defNew 1 1 St.start
          []).trace.filter isBuildEvt).length
        = (([] : List Event).filter isBuildEvt).length + 1
    ∧ ((attemptLoop cArgs cEnv iName tblName false defNew 1 1 St.start
          []).trace.filter isRenameEvt).length
        = (([] : List Event).filter isRenameEvt).length + 1 := by
  have h := valid_attempt_swaps_once_and_stops cArgs cEnv iName tblName
    false defNew 1 0 St.start [] (iName ++ "_new") [] 64 [] 64 []
    rfl (by decide) rfl rfl rfl
  exact ⟨rfl, by decide, h.1, h.2.1, h.2.2.1, h.2.2.2⟩

theorem retries_exhausted_witness :
    cArgs.dryrun = false
    ∧ attemptLoop cArgs cEnvInvalid iName tblName false defNew 1 2
        St.start [] =
      .ok {St.start with
             idxcount_retries := St.start.idxcount_retries + 2,
             clock_pos := St.start.clock_pos + 2}
        ([] ++ (List.replicate 2 (invalidBlock iName defNew)).flatten)
    ∧ (([] ++ (List.replicate 2 (invalidBlock iName defNew)).flatten).filter
          (isSwapStmt iName)
        = ([] : List Event).filter (isSwapStmt iName))
    ∧ replacementLive (iName ++ "_new")
        ([] ++ (List.replicate 2 (invalidBlock iName defNew)).flatten)
        = false := by
  have h := retries_exhausted_no_swap_no_replacement cArgs cEnvInvalid
    iName tblName false defNew 1 St.start [] rfl
    (fun a => ⟨iName ++ "_new", [], rfl⟩)
    (fun p => by change (0 : Int) < 1000; decide)
  exact ⟨rfl, h.1, h.2.1, h.2.2⟩

theorem deadline_checked_witness :
    cArgsExpired.halt_time ≤ cEnv.clock St.start.clock_pos
    ∧ process_index cArgsExpired cEnv iName St.start =
        .ok {St.start with time_exit := true,
                           clock_pos := St.start.clock_pos + 1} []
    ∧ process_table cArgsExpired cEnv tblName St.start =
        .ok {St.start with time_exit := true,
                           clock_pos := St.start.clock_pos + 1} [] := by
  have h := deadline_checked_at_unit_start_and_loop_top cArgsExpired cEnv
    iName tblName St.start
  exact ⟨by decide, h.1 (by decide), h.2.1 (by decide)⟩

theorem ignored_index_witness :
    cArgsIgnore.ignorelist.contains iName = true
    ∧ (process_index cArgsIgnore cEnv iName St.start).trace = []
    ∧ process_index cArgsIgnore cEnv iName St.start =
        .ok {St.start with idxcount := St.start.idxcount + 1,
                           idxcount_ignored := St.start.idxcount_ignored + 1,
                           clock_pos := St.start.clock_pos + 1} [] := by
  have h := ignored_index_no_mutation cArgsIgnore cEnv iName St.start rfl
  exact ⟨rfl, h.1, h.2 (by decide)⟩

theorem enforce_time_witness :
    cArgsEnforce.enforcetime = true
    ∧ cEnv.clock St.start.clock_pos < cArgsEnforce.halt_time
    ∧ (process_index cArgsEnforce cEnv iName St.start).trace.head? =
        some (dbq cArgsEnforce.dryrun false
          (.setTimeout ((cArgsEnforce.halt_time
            - cEnv.clock (St.start.clock_pos + 1)) + 30))) := by
  obtain ⟨rest, h⟩ := enforce_time_sets_statement_timeout_first
    cArgsEnforce cEnv iName St.start rfl (by decide) rfl
  exact ⟨rfl, by decide, by rw [h]; rfl⟩

theorem dry_run_witness :
    cArgsDry.dryrun = true
    ∧ ((process_index cArgsDry cEnv iName St.start).trace.all
        (dryOk iName) = true)
    ∧ (process_index cArgsDry cEnv iName St.start).st.idxcount_retries
        = St.start.idxcount_retries
    ∧ ((process_index cArgsDry cEnv iName St.start).st.total_idx_size_after
          - St.start.total_idx_size_after
        = (process_index cArgsDry cEnv iName St.start).st.total_idx_size_before
          - St.start.total_idx_size_before) := by
  have h := dry_run_prints_mutations_executes_reads cArgsDry cEnv iName
    St.start rfl
  exact ⟨rfl, h.1, h.2.1, h.2.2⟩

theorem dbquery_error_policy_witness :
    (!false || false) = true
    ∧ dbquery false false .queryCancelled = .ok ⟨true, true⟩
    ∧ dbquery false false .dbError = .ok ⟨true, true⟩
    ∧ dbquery false false .unexpected = .error ()
    ∧ dbquery false false .ok = .ok ⟨true, false⟩ := by
  have h := dbquery_error_policy false false rfl
  exact ⟨rfl, h.1, h.2.1, h.2.2.1, h.2.2.2⟩

theorem unguarded_validity_fetch_witness :
    cArgs.dryrun = false
    ∧ cEnvNoRow.idx_valid 1 (iName ++ "_new") = []
    ∧ cArgs.retries = 1 + 1
    ∧ (process_index cArgs cEnvNoRow iName St.start).isFatal = true := by
  refine ⟨rfl, rfl, rfl, ?_⟩
  exact unguarded_validity_fetch_fatal cArgs cEnvNoRow iName St.start
    tblName false (defOrig, defNew) [] 1 rfl
    (fun p => by change (0 : Int) < 1000; decide) rfl rfl rfl rfl rfl

theorem empty_table_witness :
    cEnvNoIdx.table_indexes tblName = []
    ∧ process_table cArgs cEnvNoIdx tblName St.start =
        .ok {St.start with tabcount := St.start.tabcount + 1,
                           clock_pos := St.start.clock_pos + 1}
          [dbq cArgs.dryrun true (.idxNames tblName)]
    ∧ (process_table cArgs cEnvNoIdx tblName St.start).isFatal = false := by
  have h := empty_table_counted_no_notfound cArgs cEnvNoIdx tblName
    St.start (by decide) rfl
  exact ⟨rfl, h.1, h.2.2.2⟩

end ReindexConcurrently
